import Mathlib

/-!
Verification of the Sanctuary.SoeProtocol Rust sources against their
natural-language specification.

Modelling conventions:
* bytes are `Nat` values below 256, buffers are `List Nat`;
* `u64` arithmetic wraps modulo `2 ^ 64` (Rust release-mode semantics);
  `u8` arithmetic wraps modulo `256`;
* out-of-bounds reads (a panic in Rust) are modelled with `List.getD`
  returning `0`; the properties below only exercise in-bounds accesses;
* fields and functions keep the names of the Rust source.
-/

namespace SoeProtocol

/-- Wrap-around subtraction of 64-bit unsigned values (`a - b` on `u64`,
for `a b < 2 ^ 64`). -/
def sub64 (a b : Nat) : Nat :=
  (a + (2 ^ 64 - b)) % 2 ^ 64

/-- Embeds `get_true_incoming_sequence` of src/util/data_utils.rs.
In the source `packet_sequence : u16`, `current_sequence : u64` and
`max_queued_reliable_data_packets : i16` is cast with `as u64`; the claims
only concern non-negative window values, for which that cast is the
identity, so the parameter is taken as a `Nat`.  The `u64` additions and
subtractions wrap modulo `2 ^ 64`. -/
def get_true_incoming_sequence (packet_sequence current_sequence
    max_queued_reliable_data_packets : Nat) : Nat :=
  let sequence := packet_sequence ||| (current_sequence &&& 0xFFFFFFFFFFFF0000)
  if sequence < sub64 current_sequence max_queued_reliable_data_packets then
    (sequence + (0xFFFF + 1)) % 2 ^ 64
  else if sequence > (current_sequence + max_queued_reliable_data_packets) % 2 ^ 64 then
    sub64 sequence (0xFFFF + 1)
  else
    sequence

/-- The reference sequence-extension algorithm of spec section 4.3, taken
word for word: `candidate = (current_sequence & 0xFFFFFFFFFFFF0000) |
packet_sequence`; step 2 compares against `current_sequence - w` computed
with saturating subtraction (which is exactly `Nat` subtraction), per the
underflow note of the spec; steps 2 and 3 adjust by one 2^16 block. -/
def spec_true_incoming_sequence (packet_sequence current_sequence w : Nat) : Nat :=
  let candidate := (current_sequence &&& 0xFFFFFFFFFFFF0000) ||| packet_sequence
  if candidate < current_sequence - w then candidate + 0x10000
  else if candidate > current_sequence + w then candidate - 0x10000
  else candidate

/-- Embeds `MULTI_DATA_INDICATOR` of src/util/data_utils.rs. -/
def MULTI_DATA_INDICATOR : List Nat := [0x00, 0x19]

/-- Embeds `has_multi_data_indicator` of src/util/data_utils.rs: the
length guard short-circuits before the two-byte slice is compared. -/
def has_multi_data_indicator (buffer : List Nat) : Bool :=
  decide (MULTI_DATA_INDICATOR.length ≤ buffer.length)
    && decide (buffer.take 2 = MULTI_DATA_INDICATOR)

/-- Embeds `read_variable_length` of src/util/data_utils.rs.  Returns the
decoded value together with the advanced offset.  The 7-byte branch of the
source reads the four big-endian bytes twice and ORs the results together;
that redundancy is kept. -/
def read_variable_length (buffer : List Nat) (offset : Nat) : Nat × Nat :=
  if buffer.getD offset 0 < 0xFF then
    (buffer.getD offset 0, offset + 1)
  else if buffer.getD (offset + 1) 0 = 0xFF ∧ buffer.getD (offset + 2) 0 = 0xFF then
    let value := buffer.getD (offset + 3) 0 <<< 24 ||| buffer.getD (offset + 4) 0 <<< 16
      ||| buffer.getD (offset + 5) 0 <<< 8 ||| buffer.getD (offset + 6) 0
    let value := value ||| buffer.getD (offset + 3) 0 <<< 24
    let value := value ||| buffer.getD (offset + 4) 0 <<< 16
    let value := value ||| buffer.getD (offset + 5) 0 <<< 8
    let value := value ||| buffer.getD (offset + 6) 0
    (value, offset + 7)
  else
    let value := (0 : Nat) ||| buffer.getD (offset + 1) 0 <<< 8
    let value := value ||| buffer.getD (offset + 2) 0
    (value, offset + 3)

/-- Embeds `get_variable_length_size` of src/util/data_utils.rs (the
branch results are `size_of` expressions in the source: 1, 2 + 1, 4 + 3). -/
def get_variable_length_size (length : Nat) : Nat :=
  if length < 0xFF then 1
  else if length < 0xFFFF then 2 + 1
  else 4 + 3

/-- Embeds `write_variable_length` of src/util/data_utils.rs.  The body of
the function is empty in the source, so the buffer and the offset are
returned unchanged. -/
def write_variable_length (buffer : List Nat) (length offset : Nat) : List Nat × Nat :=
  (buffer, offset)

/-- Embeds `write::write_u16_be` of src/util/binary_primitives.rs.  The
source body is the single statement `buffer[0] = (value >> 8) as u8`;
nothing is written at offset 1. -/
def write_u16_be (buffer : List Nat) (value : Nat) : List Nat :=
  buffer.set 0 ((value >>> 8) % 256)

/-- Embeds `read::read_u16_be` of src/util/binary_primitives.rs. -/
def read_u16_be (buffer : List Nat) : Nat :=
  buffer.getD 0 0 <<< 8 ||| buffer.getD 1 0

/-- Embeds the `Rc4` struct of src/services/rc4.rs: two `u8` indices and
the 256-byte state array, the latter modelled as a list. -/
structure Rc4 where
  index_1 : Nat
  index_2 : Nat
  state : List Nat

/-- Embeds `<[T]>::swap(i, j)` on the state array: both cells are read
from the original list before either is written. -/
def listSwap (l : List Nat) (i j : Nat) : List Nat :=
  (l.set i (l.getD j 0)).set j (l.getD i 0)

/-- One iteration of the key-scheduling loop of `Rc4::new`: the
accumulator carries `(state, swap_index_1, swap_index_2)`. -/
def ksaStep (key : List Nat) (acc : List Nat × Nat × Nat) (i : Nat) :
    List Nat × Nat × Nat :=
  let swap_index_2 := (acc.2.2 + acc.1.getD i 0 + key.getD acc.2.1 0) % 256
  (listSwap acc.1 i swap_index_2, ((acc.2.1 + 1) % key.length, swap_index_2))

/-- Embeds `Rc4::new` of src/services/rc4.rs: the state is seeded with
the identity permutation `0, 1, ..., 255` and mixed by 256 key-schedule
swaps; both indices start at zero.  The source asserts
`1 <= key.len() <= 256`; that precondition appears as a hypothesis of the
theorems below. -/
def Rc4.new (key : List Nat) : Rc4 :=
  let seeded := (List.range 256).foldl (ksaStep key) (List.range 256, (0, 0))
  { index_1 := 0, index_2 := 0, state := seeded.1 }

/-- Embeds `Rc4::next` of src/services/rc4.rs: advances both indices
(`u8` wrap-around), swaps the two addressed cells and returns the
keystream byte, together with the advanced cipher state. -/
def Rc4.next (r : Rc4) : Rc4 × Nat :=
  let i1 := (r.index_1 + 1) % 256
  let i2 := (r.index_2 + r.state.getD i1 0) % 256
  let st := listSwap r.state i1 i2
  let index := (st.getD i1 0 + st.getD i2 0) % 256
  ({ index_1 := i1, index_2 := i2, state := st }, st.getD index 0)

/-- Embeds `Rc4::transform` of src/services/rc4.rs: XORs every buffer
byte with the next keystream byte, returning the advanced cipher state and
the transformed buffer. -/
def Rc4.transform : Rc4 → List Nat → Rc4 × List Nat
  | r, [] => (r, [])
  | r, b :: rest =>
    let stepped := r.next
    let tail := stepped.1.transform rest
    (tail.1, (b ^^^ stepped.2) :: tail.2)

/-! Helper lemmas. -/

/-- Transforming twice from the same cipher state restores the buffer:
both passes consume the identical keystream and XOR cancels. -/
theorem transform_transform (r : Rc4) (m : List Nat) :
    (r.transform ((r.transform m).2)).2 = m := by
  induction m generalizing r with
  | nil => rfl
  | cons b bs ih =>
    simp only [Rc4.transform]
    rw [Nat.xor_cancel_right, ih]

/-- Swapping two in-bounds cells permutes the list. -/
theorem listSwap_perm (l : List Nat) (i j : Nat) (hi : i < l.length)
    (hj : j < l.length) : (listSwap l i j).Perm l := by
  rw [List.perm_iff_count]
  intro a
  unfold listSwap
  have hj' : j < (l.set i (l.getD j 0)).length := by simpa using hj
  rw [List.count_set _ _ _ _ hj', List.count_set _ _ _ _ hi]
  have hgj : l.getD j 0 = l[j] := List.getD_eq_getElem l 0 hj
  have hgi : l.getD i 0 = l[i] := List.getD_eq_getElem l 0 hi
  have hset : (l.set i (l.getD j 0))[j] = l[j] := by
    rw [List.getElem_set]
    split
    · exact hgj
    · rfl
  rw [hset, hgj, hgi]
  by_cases h1 : l[i] = a
  · have hcount : 0 < List.count a l := by
      rw [List.count_pos_iff]
      exact h1 ▸ List.getElem_mem hi
    by_cases h2 : l[j] = a <;> simp [h1, h2] <;> omega
  · by_cases h2 : l[j] = a
    · simp [h1, h2]
    · simp [h1, h2]

/-- The key-scheduling fold keeps the state a permutation of `0..255` as
long as every loop index is below 256. -/
theorem foldl_ksaStep_perm (key : List Nat) (l : List Nat) :
    ∀ acc : List Nat × Nat × Nat, (∀ x ∈ l, x < 256) →
      acc.1.Perm (List.range 256) →
      ((l.foldl (ksaStep key) acc).1).Perm (List.range 256) := by
  induction l with
  | nil => intro acc _ h; simpa using h
  | cons x xs ih =>
    intro acc hmem hperm
    rw [List.foldl_cons]
    apply ih
    · intro y hy
      exact hmem y (List.mem_cons_of_mem _ hy)
    · have hlen : acc.1.length = 256 := by simpa using hperm.length_eq
      unfold ksaStep
      exact (listSwap_perm _ _ _
        (by rw [hlen]; exact hmem x (List.mem_cons_self x xs))
        (by rw [hlen]; exact Nat.mod_lt _ (by norm_num))).trans hperm

/-- Conjoining `0xFFFFFFFFFFFF0000` zeroes the low 16 bits and keeps the
others: for a 64-bit value this is exactly rounding down to a multiple of
`2 ^ 16`. -/
theorem and_mask_eq (c : Nat) (hc : c < 2 ^ 64) :
    c &&& 0xFFFFFFFFFFFF0000 = 2 ^ 16 * (c / 2 ^ 16) := by
  have hM : (0xFFFFFFFFFFFF0000 : Nat) = (2 ^ 48 - 1) <<< 16 := by
    rw [Nat.shiftLeft_eq]
    norm_num
  have hR : 2 ^ 16 * (c / 2 ^ 16) = (c >>> 16) <<< 16 := by
    rw [Nat.shiftLeft_eq, Nat.shiftRight_eq_div_pow]
    ring
  rw [hM, hR]
  apply Nat.eq_of_testBit_eq
  intro i
  rw [Nat.testBit_and, Nat.testBit_shiftLeft, Nat.testBit_shiftLeft,
    Nat.testBit_two_pow_sub_one, Nat.testBit_shiftRight]
  by_cases h16 : 16 ≤ i
  · by_cases h64 : i < 64
    · simp [ge_iff_le, h16, show 16 + (i - 16) = i from by omega,
        show i - 16 < 48 from by omega]
    · have hf : c.testBit i = false :=
        Nat.testBit_lt_two_pow (lt_of_lt_of_le hc
          (Nat.pow_le_pow_right (by norm_num) (by omega)))
      have hf2 : c.testBit (16 + (i - 16)) = false := by
        rw [show 16 + (i - 16) = i from by omega]
        exact hf
      simp [hf, hf2, show ¬(i - 16 < 48) from by omega]
  · simp [ge_iff_le, h16]

/-- The candidate sequence built by `get_true_incoming_sequence` is the
high 48 bits of the current sequence with the packet sequence in the low
16 bits; since the two parts occupy disjoint bits, the OR is a sum. -/
theorem candidate_eq (p c : Nat) (hp : p < 2 ^ 16) (hc : c < 2 ^ 64) :
    p ||| (c &&& 0xFFFFFFFFFFFF0000) = 2 ^ 16 * (c / 2 ^ 16) + p := by
  rw [and_mask_eq c hc, Nat.or_comm]
  exact (Nat.mul_add_lt_is_or hp _).symm

set_option maxRecDepth 100000 in
/-- Evaluation of the first RC4 test vector: key "Key",
plaintext "Plaintext". -/
theorem rc4_vector_key_plaintext :
    ((Rc4.new [0x4B, 0x65, 0x79]).transform
      [0x50, 0x6C, 0x61, 0x69, 0x6E, 0x74, 0x65, 0x78, 0x74]).2 =
      [0xBB, 0xF3, 0x16, 0xE8, 0xD9, 0x40, 0xAF, 0x0A, 0xD3] := by
  decide

set_option maxRecDepth 100000 in
/-- Evaluation of the second RC4 test vector: key "Wiki",
plaintext "pedia". -/
theorem rc4_vector_wiki_pedia :
    ((Rc4.new [0x57, 0x69, 0x6B, 0x69]).transform
      [0x70, 0x65, 0x64, 0x69, 0x61]).2 = [0x10, 0x21, 0xBF, 0x04, 0x20] := by
  decide

set_option maxRecDepth 100000 in
/-- Evaluation of the third RC4 test vector: key "Secret",
plaintext "Attack at dawn". -/
theorem rc4_vector_secret_attack :
    ((Rc4.new [0x53, 0x65, 0x63, 0x72, 0x65, 0x74]).transform
      [0x41, 0x74, 0x74, 0x61, 0x63, 0x6B, 0x20, 0x61, 0x74, 0x20, 0x64,
        0x61, 0x77, 0x6E]).2 =
      [0x45, 0xA0, 0x1F, 0x64, 0x5F, 0xC3, 0x5B, 0x38, 0x35, 0x52, 0x54,
        0x4B, 0x9B, 0xF5] := by
  decide

/-! Claims. -/

/-- C1 counterexample: at `packet = 0`, `current = 100`, `W = 256` the code
underflows the plain u64 subtraction `current - W` (wrapping to a huge
value), takes the forward-wrap branch and returns `0x10000`, while the
reference algorithm of spec section 4.3, with saturating subtraction,
returns `0`. -/
theorem get_true_incoming_sequence_underflow_cex :
    get_true_incoming_sequence 0 100 256 ≠ spec_true_incoming_sequence 0 100 256 := by
  decide

/-- C1 (amended): whenever no u64 wrap-around occurs — in particular for
every `current_sequence` with `2^16 ≤ current_sequence < 2^64 - 2^16` —
`get_true_incoming_sequence` agrees with the reference algorithm of spec
section 4.3.  When `current_sequence < W` the code wraps where the spec
saturates and the two differ. -/
theorem get_true_incoming_sequence_eq_spec (p c w : Nat) (hp : p < 2 ^ 16)
    (hw : w < 2 ^ 15) (hc1 : 2 ^ 16 ≤ c) (hc2 : c < 2 ^ 64 - 2 ^ 16) :
    get_true_incoming_sequence p c w = spec_true_incoming_sequence p c w := by
  have hc : c < 2 ^ 64 := by omega
  have hcand := candidate_eq p c hp hc
  simp only [get_true_incoming_sequence, spec_true_incoming_sequence, sub64]
  rw [show (c &&& 0xFFFFFFFFFFFF0000) ||| p = p ||| (c &&& 0xFFFFFFFFFFFF0000)
    from Nat.or_comm _ _, hcand]
  split_ifs <;> omega

/-- C1 witness: the agreement theorem applied at a concrete input. -/
theorem get_true_incoming_sequence_eq_spec_witness :
    get_true_incoming_sequence 0x0001 0x1FFFF 256 =
      spec_true_incoming_sequence 0x0001 0x1FFFF 256 :=
  get_true_incoming_sequence_eq_spec 0x0001 0x1FFFF 256 (by decide) (by decide)
    (by decide) (by decide)

/-- C2 counterexample: at `packet = 0`, `current = 0x1012C`, `W = 256` the
code returns `s = 0x20000`, so `|s - current| = 65236 > 2^15` even though
`s &&& 0xFFFF = packet` holds; the claimed conjunction fails. -/
theorem get_true_incoming_sequence_window_cex :
    ¬(((get_true_incoming_sequence 0 0x1012C 256 : Int) - 0x1012C).natAbs ≤ 2 ^ 15
      ∧ get_true_incoming_sequence 0 0x1012C 256 &&& 0xFFFF = 0) := by
  decide

/-- C2 (amended): the low 16 bits of the result always equal the packet
sequence; the distance bound must be weakened from `2^15` to `2^16` and
restricted to `2^16 ≤ current_sequence < 2^64 - 2^16`, where no u64
wrap-around occurs. -/
theorem get_true_incoming_sequence_low_bits_window (p c w : Nat)
    (hp : p < 2 ^ 16) (hc : c < 2 ^ 64) (hw : w < 2 ^ 15) :
    get_true_incoming_sequence p c w &&& 0xFFFF = p
    ∧ (2 ^ 16 ≤ c → c < 2 ^ 64 - 2 ^ 16 →
        ((get_true_incoming_sequence p c w : Int) - (c : Int)).natAbs < 2 ^ 16) := by
  have hcand := candidate_eq p c hp hc
  constructor
  · rw [show (0xFFFF : Nat) = 2 ^ 16 - 1 from by norm_num,
      Nat.and_pow_two_sub_one_eq_mod]
    simp only [get_true_incoming_sequence, sub64]
    rw [hcand]
    split_ifs <;> omega
  · intro hc1 hc2
    simp only [get_true_incoming_sequence, sub64]
    rw [hcand]
    split_ifs <;> omega

/-- C2 witness: the low-bits and window theorem applied at a concrete
input. -/
theorem get_true_incoming_sequence_low_bits_window_witness :
    get_true_incoming_sequence 0x0001 0x1FFFF 256 &&& 0xFFFF = 0x0001
    ∧ (2 ^ 16 ≤ 0x1FFFF → (0x1FFFF : Nat) < 2 ^ 64 - 2 ^ 16 →
        ((get_true_incoming_sequence 0x0001 0x1FFFF 256 : Int) -
          (0x1FFFF : Nat)).natAbs < 2 ^ 16) :=
  get_true_incoming_sequence_low_bits_window 0x0001 0x1FFFF 256 (by decide)
    (by decide) (by decide)

/-- C3: for every key of length 1..256 and every byte sequence, RC4
transformation with two freshly keyed ciphers is an involution:
transforming the transformed buffer restores the original. -/
theorem rc4_transform_involution (key m : List Nat) (hk1 : 1 ≤ key.length)
    (hk2 : key.length ≤ 256) :
    ((Rc4.new key).transform (((Rc4.new key).transform m).2)).2 = m :=
  transform_transform (Rc4.new key) m

/-- C3 witness: the involution theorem applied at a concrete key and
buffer. -/
theorem rc4_transform_involution_witness :
    ((Rc4.new [0x4B]).transform (((Rc4.new [0x4B]).transform [0x41, 0xFF]).2)).2
      = [0x41, 0xFF] :=
  rc4_transform_involution [0x4B] [0x41, 0xFF] (by decide) (by decide)

/-- C4: the claimed write-then-read round trip for variable-length values
fails because `write_variable_length` has an empty body in the source: it
leaves the buffer (here eight zero bytes) and the offset untouched, so
reading back yields `0` instead of the written value `10`, although
`get_variable_length_size 10 = 1` byte was supposed to be produced. -/
theorem write_variable_length_stub_roundtrip_fails :
    write_variable_length (List.replicate 8 0) 10 0 = (List.replicate 8 0, 0)
    ∧ (read_variable_length (write_variable_length (List.replicate 8 0) 10 0).1 0).1 = 0
    ∧ get_variable_length_size 10 = 1 := by
  decide

/-- C5: `write_u16_be` writes only the high byte: on the buffer
`[0x00, 0x00]` with value `0x0102` it produces `[0x01, 0x00]`, leaving the
low byte `0x02` (= `0x0102 % 256`) unwritten at offset 1. -/
theorem write_u16_be_drops_low_byte :
    write_u16_be [0x00, 0x00] 0x0102 = [0x01, 0x00] ∧ (0x0102 : Nat) % 256 = 0x02 := by
  decide

set_option maxRecDepth 4000 in
/-- C6: the state of a freshly keyed cipher is a permutation of `0..255`,
and `Rc4.next` — hence also `Rc4.transform`, which only iterates it —
preserves that property. -/
theorem rc4_state_is_permutation :
    (∀ key : List Nat, 1 ≤ key.length → key.length ≤ 256 →
      (Rc4.new key).state.Perm (List.range 256))
    ∧ ∀ r : Rc4, r.state.Perm (List.range 256) →
      ((Rc4.next r).1.state).Perm (List.range 256) := by
  constructor
  · intro key _ _
    unfold Rc4.new
    apply foldl_ksaStep_perm
    · intro x hx
      simpa using hx
    · exact List.Perm.refl _
  · intro r h
    have hlen : r.state.length = 256 := by simpa using h.length_eq
    unfold Rc4.next
    exact (listSwap_perm _ _ _
      (by rw [hlen]; exact Nat.mod_lt _ (by norm_num))
      (by rw [hlen]; exact Nat.mod_lt _ (by norm_num))).trans h

/-- C6 witness: the permutation theorem applied at a concrete key. -/
theorem rc4_state_is_permutation_witness :
    (Rc4.new [0x4B]).state.Perm (List.range 256) :=
  rc4_state_is_permutation.1 [0x4B] (by decide) (by decide)

/-- C7: the three concrete RC4 test vectors of the spec hold:
keys "Key", "Wiki", "Secret" encrypt "Plaintext", "pedia",
"Attack at dawn" to the listed ciphertext bytes. -/
theorem rc4_test_vectors :
    ((Rc4.new [0x4B, 0x65, 0x79]).transform
      [0x50, 0x6C, 0x61, 0x69, 0x6E, 0x74, 0x65, 0x78, 0x74]).2 =
      [0xBB, 0xF3, 0x16, 0xE8, 0xD9, 0x40, 0xAF, 0x0A, 0xD3]
    ∧ ((Rc4.new [0x57, 0x69, 0x6B, 0x69]).transform
      [0x70, 0x65, 0x64, 0x69, 0x61]).2 = [0x10, 0x21, 0xBF, 0x04, 0x20]
    ∧ ((Rc4.new [0x53, 0x65, 0x63, 0x72, 0x65, 0x74]).transform
      [0x41, 0x74, 0x74, 0x61, 0x63, 0x6B, 0x20, 0x61, 0x74, 0x20, 0x64,
        0x61, 0x77, 0x6E]).2 =
      [0x45, 0xA0, 0x1F, 0x64, 0x5F, 0xC3, 0x5B, 0x38, 0x35, 0x52, 0x54,
        0x4B, 0x9B, 0xF5] :=
  ⟨rc4_vector_key_plaintext, rc4_vector_wiki_pedia, rc4_vector_secret_attack⟩

/-- C8: the two concrete sequence-extension examples of the spec hold. -/
theorem get_true_incoming_sequence_examples :
    get_true_incoming_sequence 0x0001 0x1FFFF 256 = 0x20001
    ∧ get_true_incoming_sequence 0xFFFE 0x20002 256 = 0x1FFFE := by
  decide

/-- C9: `get_variable_length_size` returns 1 below 0xFF, 3 below 0xFFFF
and 7 otherwise, and in particular maps 10, 300 and 70000 to 1, 3 and 7. -/
theorem get_variable_length_size_spec :
    (∀ len : Nat, len < 2 ^ 32 →
      get_variable_length_size len =
        if len < 0xFF then 1 else if len < 0xFFFF then 3 else 7)
    ∧ get_variable_length_size 10 = 1
    ∧ get_variable_length_size 300 = 3
    ∧ get_variable_length_size 70000 = 7 :=
  ⟨fun _ _ => rfl, by decide, by decide, by decide⟩

/-- C9 witness: the size theorem applied at a concrete length. -/
theorem get_variable_length_size_spec_witness :
    get_variable_length_size 10 =
      if (10 : Nat) < 0xFF then 1 else if (10 : Nat) < 0xFFFF then 3 else 7 :=
  get_variable_length_size_spec.1 10 (by decide)

/-- C10: `has_multi_data_indicator` is total on every buffer, returns true
exactly when the buffer has at least two bytes and starts with
`0x00 0x19`, and returns false on every shorter buffer. -/
theorem has_multi_data_indicator_spec (buffer : List Nat) :
    (has_multi_data_indicator buffer = true ↔
      2 ≤ buffer.length ∧ buffer.getD 0 0 = 0x00 ∧ buffer.getD 1 0 = 0x19)
    ∧ (buffer.length < 2 → has_multi_data_indicator buffer = false) := by
  match buffer with
  | [] =>
    exact ⟨by simp [has_multi_data_indicator, MULTI_DATA_INDICATOR], fun _ => rfl⟩
  | [a] =>
    exact ⟨by simp [has_multi_data_indicator, MULTI_DATA_INDICATOR], fun _ => rfl⟩
  | a :: b :: t =>
    refine ⟨?_, ?_⟩
    · simp [has_multi_data_indicator, MULTI_DATA_INDICATOR]
    · intro h
      simp at h
      exact absurd h (by omega)

/-- C10 witness: the indicator theorem applied at a concrete short
buffer. -/
theorem has_multi_data_indicator_spec_witness :
    has_multi_data_indicator [0x19] = false :=
  (has_multi_data_indicator_spec [0x19]).2 (by decide)

end SoeProtocol
